import Mathlib

/-!
Shallow embedding of the linty static text-pattern linter (src/main.rs).

The embedding models the core pipeline: rule compilation
(`generate_rules_from_config`), the per-rule file-scope test and the
specified-paths restriction (the skip condition in `main`'s walk loop),
lazy file reading with the empty-buffer sentinel, regex find-all matching
with line-number derivation, violation aggregation (partition by severity,
group by rule id), the interactive confirmation loop, the final
success/failure policy, and the `init` subcommand with its JSON
round-trip through `read_config`.

External collaborators are modelled abstractly but with their documented
semantics: a compiled regex is a function giving the match length at a
character offset (find-all iteration is then the standard non-overlapping
leftmost-first scan); a compiled glob is a predicate on paths; a glob set
matches a path when some member does (an empty set matches nothing, as
documented for globset's `GlobSet::is_match`); serde JSON values are a
small inductive `Json` type.
-/

/-- Severity of a rule, `warning` or `error` (src/main.rs:57-62). -/
inductive Severity where
  | Warning : Severity
  | Error : Severity
deriving DecidableEq, Repr

/-- Declarative rule definition as deserialized from the config file
(src/main.rs:64-72). -/
structure RuleConfig where
  id : String
  message : String
  regex : String
  severity : Severity
  includes : Option (List String)
  excludes : Option (List String)
deriving DecidableEq, Repr

/-- Top-level config: a list of rule definitions (src/main.rs:74-77). -/
structure Config where
  rules : List RuleConfig
deriving DecidableEq, Repr

/-- A compiled glob, modelled by its matching semantics: a predicate on
the textual path. -/
abbrev Glob := String → Bool

/-- A compiled regex, modelled by its matching semantics: given the text
(as a character list) and a start offset, return `some len` when a match
of length `len` begins at that offset, `none` otherwise. -/
abbrev Matcher := List Char → Nat → Option Nat

/-- Compiled rule (src/main.rs:79-85): id, compiled pattern, severity and
the two compiled glob sets (a `GlobSet` is modelled as the list of its
globs). -/
structure Rule where
  id : String
  regex : Matcher
  severity : Severity
  includes : List Glob
  excludes : List Glob

/-- Violation record (src/main.rs:87-93): rule id, severity copied from
the rule, file name, and the 1-based line numbers where the pattern
matched. -/
structure Violation where
  rule_id : String
  severity : Severity
  file : String
  lines : List Nat
deriving DecidableEq, Repr

/-- Matching a `GlobSet` against a path: true when some glob in the set
matches. An empty set matches nothing (globset semantics). -/
def globSetMatch (gs : List Glob) (path : String) : Bool :=
  gs.any (fun g => g path)

/-- The skip condition of the walk loop (src/main.rs:162-169): a rule is
skipped for an entry when (includes is non-empty and no include matches)
or some exclude matches, or specified paths were given and the entry's
canonical path is not among them. -/
def skipRule (rule : Rule) (specified : List String) (path canonPath : String) : Bool :=
  (!rule.includes.isEmpty && !globSetMatch rule.includes path)
    || globSetMatch rule.excludes path
    || (!specified.isEmpty && !specified.contains canonPath)

/-- Scope test as worded by the spec (for the refinement claim): a file
is in scope for a rule if (includes is empty OR the path matches at least
one include glob) AND (excludes is empty OR the path does NOT match any
exclude glob). -/
def inScopeSpec (rule : Rule) (path : String) : Bool :=
  (rule.includes.isEmpty || globSetMatch rule.includes path)
    && (rule.excludes.isEmpty || !globSetMatch rule.excludes path)

/-- Auxiliary scan for the first match at or after offset `k`, with fuel
bounding the number of offsets still to try. Returns the match's start
offset and length. -/
def findFromAux (m : Matcher) (content : List Char) : Nat → Nat → Option (Nat × Nat)
  | 0, _ => none
  | fuel + 1, k =>
    match m content k with
    | some len => some (k, len)
    | none => findFromAux m content fuel (k + 1)

/-- First match of `m` in `content` at or after offset `pos`
(leftmost-first search). -/
def findFrom (m : Matcher) (content : List Char) (pos : Nat) : Option (Nat × Nat) :=
  findFromAux m content (content.length + 1 - pos) pos

/-- Auxiliary worker for find-all iteration; fuel bounds the number of
matches still possible. After each match the scan resumes at the match
end (one past the start for an empty match), giving non-overlapping
leftmost-first semantics. -/
def findIterAux (m : Matcher) (content : List Char) : Nat → Nat → List Nat
  | 0, _ => []
  | fuel + 1, pos =>
    match findFrom m content pos with
    | none => []
    | some (k, len) => k :: findIterAux m content fuel (k + max len 1)

/-- Start offsets of all matches of `m` in `content`, non-overlapping and
leftmost-first (the semantics of regex `find_iter`, src/main.rs:197). -/
def findIter (m : Matcher) (content : List Char) : List Nat :=
  findIterAux m content (content.length + 1) 0

/-- Number of newline characters in a character list. -/
def countNl (cs : List Char) : Nat :=
  (cs.filter (fun c => c == '\n')).length

/-- Line numbers reported for the matches of a compiled pattern in a
file's content (src/main.rs:196-204): for each match start offset `k`,
the value `1 +` the number of newline characters before offset `k`. -/
def matchLines (m : Matcher) (content : List Char) : List Nat :=
  (findIter m content).map (fun k => countNl (content.take k) + 1)

/-- Violations contributed by one rule on one file's content
(src/main.rs:205-212): one violation carrying all matched lines when the
pattern matched at least once, nothing otherwise. -/
def ruleViolation (rule : Rule) (fileName : String) (content : List Char) : List Violation :=
  let lines := matchLines rule.regex content
  if lines.isEmpty then [] else [⟨rule.id, rule.severity, fileName, lines⟩]

/-- A literal-substring matcher (used to instantiate the abstract
`Matcher` on concrete inputs): matches wherever the pattern occurs as a
contiguous substring. -/
def litMatcher (pat : List Char) : Matcher :=
  fun content k => if (content.drop k).take pat.length == pat then some pat.length else none

example : findIter (litMatcher "TODO".toList) "a\nTODO b TODO".toList = [2, 9] := by decide

example : matchLines (litMatcher "TODO".toList) "a\nTODO b TODO".toList = [2, 2] := by decide

/-- Result of processing the rule list against one walked file: the
violations pushed, how many times the file's bytes were read from disk,
and the messages printed to the error stream. -/
structure FileScan where
  violations : List Violation
  reads : Nat
  errMsgs : List String
deriving DecidableEq, Repr

/-- The per-entry rule loop (src/main.rs:160-213). `buf` is the
`file_contents` buffer, initially empty; `disk` is what opening and
reading the file yields. For each rule: skip when out of scope; otherwise
read the file into the buffer if the buffer is empty (the lazy-read
sentinel, src/main.rs:171); a failed open/read prints an error and moves
to the next rule; then run the matcher and push at most one violation. -/
def processRules (specified : List String) (entryPath canonPath fileName : String)
    (disk : Except String (List Char)) : List Rule → List Char → FileScan
  | [], _ => ⟨[], 0, []⟩
  | rule :: rest, buf =>
    if skipRule rule specified entryPath canonPath then
      processRules specified entryPath canonPath fileName disk rest buf
    else if buf.isEmpty then
      match disk with
      | .error e =>
        let s := processRules specified entryPath canonPath fileName disk rest buf
        ⟨s.violations, s.reads, ("Error: Failed to open " ++ entryPath ++ "\nReason: " ++ e) :: s.errMsgs⟩
      | .ok c =>
        let s := processRules specified entryPath canonPath fileName disk rest c
        ⟨ruleViolation rule fileName c ++ s.violations, s.reads + 1, s.errMsgs⟩
    else
      let s := processRules specified entryPath canonPath fileName disk rest buf
      ⟨ruleViolation rule fileName buf ++ s.violations, s.reads, s.errMsgs⟩

/-- One item yielded by the directory walk (src/main.rs:147-155): either
an error from the walker, or an entry carrying its path, canonical path,
file name, whether it is a directory, whether its metadata query
succeeds, and what opening/reading it yields. -/
inductive WalkItem where
  | err : String → WalkItem
  | entry : String → String → String → Bool → Bool → Except String (List Char) → WalkItem

/-- Whether the metadata query for a walk item succeeds (vacuously true
for walker errors, which carry no entry). -/
def WalkItem.metaOk : WalkItem → Bool
  | .err _ => true
  | .entry _ _ _ _ mOk _ => mOk

/-- The walk loop of `main` (src/main.rs:147-216). A walker error is
printed and the loop continues; an entry's metadata query uses `?` so its
failure aborts the whole run (src/main.rs:156); directories are skipped;
other entries go through the per-entry rule loop. Returns the collected
violations and error-stream messages, or the aborting error. -/
def runWalk (rules : List Rule) (specified : List String) :
    List WalkItem → Except String (List Violation × List String)
  | [] => .ok ([], [])
  | .err m :: rest =>
    match runWalk rules specified rest with
    | .ok (vs, msgs) => .ok (vs, ("Error: " ++ m) :: msgs)
    | .error e => .error e
  | .entry path canonPath fileName isDir mOk disk :: rest =>
    if !mOk then .error ("metadata query failed for " ++ path)
    else if isDir then runWalk rules specified rest
    else
      let s := processRules specified path canonPath fileName disk rules []
      match runWalk rules specified rest with
      | .ok (vs, msgs) => .ok (s.violations ++ vs, s.errMsgs ++ msgs)
      | .error e => .error e

/-- Fallible traversal of a list, short-circuiting on the first failure
(the behaviour of a loop of `?`-propagated pushes). -/
def tryCollect (f : α → Option β) : List α → Option (List β)
  | [] => some []
  | x :: xs => (f x).bind fun y => (tryCollect f xs).map fun ys => y :: ys

/-- Compilation of one rule definition (the body of the loop in
src/main.rs:334-355): compile every include glob, every exclude glob and
the regex, failing if any of them fails. `compileGlob` and `compileRegex`
stand for `Glob::new`/`GlobSetBuilder::build` and `RegexBuilder::build`
of the external crates. -/
def compileRule (compileGlob : String → Option Glob) (compileRegex : String → Option Matcher)
    (rc : RuleConfig) : Option Rule :=
  match tryCollect compileGlob (rc.includes.getD []) with
  | none => none
  | some incl =>
    match tryCollect compileGlob (rc.excludes.getD []) with
    | none => none
    | some excl =>
      match compileRegex rc.regex with
      | none => none
      | some re => some ⟨rc.id, re, rc.severity, incl, excl⟩

/-- Rule compilation (src/main.rs:331-357): compile each rule definition
in order; any failure propagates out of the function via `?`, so either
every definition compiles or no rule list is produced. -/
def generate_rules_from_config (compileGlob : String → Option Glob)
    (compileRegex : String → Option Matcher) (config : Config) : Option (List Rule) :=
  tryCollect (compileRule compileGlob compileRegex) config.rules

/-- Whether a violation carries `Warning` severity (the partition
predicate of src/main.rs:218-224). -/
def isWarning (v : Violation) : Bool :=
  match v.severity with
  | Severity.Warning => true
  | Severity.Error => false

/-- Partition of the collected violations into warnings and errors
(src/main.rs:218-224). -/
def partitionViolations (vs : List Violation) : List Violation × List Violation :=
  vs.partition isWarning

/-- Appending one violation to a list of groups keyed by rule id: push
onto the existing group with the same id, or open a new group at the end
(the `entry(..).or_insert(..).push(..)` of src/main.rs:226-240). -/
def addToGroups (v : Violation) : List (String × List Violation) → List (String × List Violation)
  | [] => [(v.rule_id, [v])]
  | (id, ws) :: rest =>
    if id = v.rule_id then (id, ws ++ [v]) :: rest else (id, ws) :: addToGroups v rest

/-- Grouping a violation list by rule id, preserving discovery order
within each group (src/main.rs:226-240; the hash map's key iteration
order is modelled as first-insertion order). -/
def groupById (vs : List Violation) : List (String × List Violation) :=
  vs.foldl (fun gs v => addToGroups v gs) []

/-- Model of Rust's `str::trim`: remove leading and trailing whitespace
characters (restricted here to the ASCII whitespace the prompt handling
can meet on a line of terminal input). -/
def rustTrim (s : String) : String :=
  ⟨((s.toList.dropWhile Char.isWhitespace).reverse.dropWhile Char.isWhitespace).reverse⟩

/-- The interactive confirmation loop (src/main.rs:268-281): consume
input lines until one trims to exactly `y` (continue, `true`) or to
exactly `n` (fail, `false`); any other line re-prompts. Returns the
decision and the unconsumed input, or `none` when the input is exhausted
(the process would block or spin on an empty line forever). -/
def confirmLoop : List String → Option (Bool × List String)
  | [] => none
  | s :: rest =>
    if rustTrim s = "y" then some (true, rest)
    else if rustTrim s = "n" then some (false, rest)
    else confirmLoop rest

/-- The loop over warning groups (src/main.rs:242-282): print each
group, then, unless `--no-confirm` was given, run the confirmation loop;
an `n` answer exits immediately (`true` = an `n` was answered), a `y`
moves to the next group. Returns `none` when a prompt never receives `y`
or `n`. -/
def processWarnGroups (noConfirm : Bool) :
    List (String × List Violation) → List String → Option (Bool × List String)
  | [], input => some (false, input)
  | _ :: rest, input =>
    if noConfirm then processWarnGroups noConfirm rest input
    else
      match confirmLoop input with
      | none => none
      | some (true, input') => processWarnGroups noConfirm rest input'
      | some (false, input') => some (true, input')

/-- The reporting and policy phase (src/main.rs:218-312): partition and
group the violations, walk the warning groups with interactive
confirmation, then exit 1 if an `n` was answered, or if any error group
exists, or if `--error-on-warning` was given and any warning group
exists; otherwise exit 0. `none` models a run blocked forever at a
prompt. -/
def finalOutcome (noConfirm errorOnWarning : Bool) (violations : List Violation)
    (input : List String) : Option Nat :=
  match processWarnGroups noConfirm (groupById (partitionViolations violations).1) input with
  | none => none
  | some (true, _) => some 1
  | some (false, _) =>
    if !(groupById (partitionViolations violations).2).isEmpty
        || (errorOnWarning && !(groupById (partitionViolations violations).1).isEmpty)
    then some 1 else some 0

/-- Serde JSON values, as far as this program's config serialization
needs them. -/
inductive Json where
  | null : Json
  | str : String → Json
  | arr : List Json → Json
  | obj : List (String × Json) → Json

/-- Field lookup in a JSON object's field list. -/
def lookupField (fields : List (String × Json)) (key : String) : Option Json :=
  (fields.find? (fun p => p.1 == key)).map (fun p => p.2)

/-- Serde serialization of a `Severity` (snake_case rename,
src/main.rs:57-58). -/
def serializeSeverity : Severity → Json
  | Severity.Warning => Json.str "warning"
  | Severity.Error => Json.str "error"

/-- Serde serialization of an optional string list: `None` becomes JSON
`null`. -/
def serializeOptList : Option (List String) → Json
  | none => Json.null
  | some xs => Json.arr (xs.map Json.str)

/-- Serde serialization of a `RuleConfig` value: a JSON object with the
six fields of src/main.rs:64-72. This is the value `init_config` writes
(src/main.rs:374-375) — note it serializes a bare `RuleConfig`, not a
`Config`. -/
def serializeRuleConfig (rc : RuleConfig) : Json :=
  Json.obj
    [("id", Json.str rc.id), ("message", Json.str rc.message),
     ("regex", Json.str rc.regex), ("severity", serializeSeverity rc.severity),
     ("includes", serializeOptList rc.includes), ("excludes", serializeOptList rc.excludes)]

/-- Serde deserialization of a `Severity`. -/
def parseSeverity : Json → Option Severity
  | Json.str "warning" => some Severity.Warning
  | Json.str "error" => some Severity.Error
  | _ => none

/-- Serde deserialization of a JSON string. -/
def parseStr : Json → Option String
  | Json.str s => some s
  | _ => none

/-- Serde deserialization of a list of strings. -/
def parseStrList : Json → Option (List String)
  | Json.arr xs => tryCollect parseStr xs
  | _ => none

/-- Serde deserialization of an `Option<Vec<String>>` field: a missing
field or `null` is `None`; anything else must be a string list. -/
def parseOptStrList : Option Json → Option (Option (List String))
  | none => some none
  | some Json.null => some none
  | some j => (parseStrList j).map some

/-- Serde deserialization of a `RuleConfig`: requires the four mandatory
fields; `includes`/`excludes` are optional. -/
def parseRuleConfig : Json → Option RuleConfig
  | Json.obj fields =>
    match parseStr (lookupField fields "id" |>.getD Json.null),
        parseStr (lookupField fields "message" |>.getD Json.null),
        parseStr (lookupField fields "regex" |>.getD Json.null),
        parseSeverity (lookupField fields "severity" |>.getD Json.null),
        parseOptStrList (lookupField fields "includes"),
        parseOptStrList (lookupField fields "excludes") with
    | some id, some message, some re, some sev, some incl, some excl =>
      some ⟨id, message, re, sev, incl, excl⟩
    | _, _, _, _, _, _ => none
  | _ => none

/-- Serde deserialization of a `Config`: a JSON object whose `rules`
field is an array of rule definitions; a value without a `rules` field is
rejected. -/
def parseConfig : Json → Option Config
  | Json.obj fields =>
    match lookupField fields "rules" with
    | some (Json.arr items) => (tryCollect parseRuleConfig items).map Config.mk
    | _ => none
  | _ => none

/-- Model of `read_config` at the default path (src/main.rs:315-329):
the config file's content (`none` when the file does not exist), parsed
as a `Config`; any failure — missing file or unparsable content — is an
error (`none`). -/
def read_config (fileContent : Option Json) : Option Config :=
  fileContent.bind parseConfig

/-- The example rule written by the `init` subcommand
(src/main.rs:365-372). -/
def exampleRuleConfig : RuleConfig :=
  ⟨"WarnOnTodos", "Are you sure you meant to leave a TODO?", "(TODO|todo)",
    Severity.Warning, none, none⟩

/-- The `init` subcommand (src/main.rs:359-379), as a transition on the
config file's content: if `read_config` succeeds, print that the config
already exists and leave the file alone; otherwise (missing OR
unparsable file) create/truncate the file, write the serialized example
`RuleConfig`, and print the initialized message. Returns the new file
content and the printed message. -/
def init_config (fileContent : Option Json) : Option Json × String :=
  match read_config fileContent with
  | some _ => (fileContent, "Config already exists!")
  | none =>
    (some (serializeRuleConfig exampleRuleConfig),
      "Initialized example config at .lintyconfig")

/-- Concrete glob matching `*.md` paths, for witnesses. -/
def mdGlob : Glob := fun p => ".md".toList.isSuffixOf p.toList

/-- Concrete glob matching `*.txt` paths, for witnesses. -/
def txtGlob : Glob := fun p => ".txt".toList.isSuffixOf p.toList

/-- Concrete warning rule with no scope filters, for witnesses. -/
def ruleA : Rule := ⟨"a-rule", litMatcher "AAA".toList, Severity.Warning, [], []⟩

/-- Concrete error rule with no scope filters, for witnesses. -/
def ruleB : Rule := ⟨"b-rule", litMatcher "BBB".toList, Severity.Error, [], []⟩

/-- Concrete rule scoped to markdown files, for witnesses. -/
def mdRule : Rule := ⟨"md-rule", litMatcher "TODO".toList, Severity.Warning, [mdGlob], []⟩

/-- Concrete warning violation, for witnesses. -/
def vWarn : Violation := ⟨"a-rule", Severity.Warning, "f.txt", [1]⟩

/-- Concrete error violation, for witnesses. -/
def vErr : Violation := ⟨"b-rule", Severity.Error, "f.txt", [2]⟩

theorem globSetMatch_empty_eq_false {gs : List Glob} (h : gs.isEmpty = true) (p : String) :
    globSetMatch gs p = false := by
  cases gs with
  | nil => rfl
  | cons g gs => simp [List.isEmpty] at h

theorem scope_part_false_iff (rule : Rule) (path : String) :
    (((!rule.includes.isEmpty && !globSetMatch rule.includes path)
      || globSetMatch rule.excludes path) = false) ↔ inScopeSpec rule path = true := by
  unfold inScopeSpec
  cases hE : rule.excludes.isEmpty with
  | true =>
    rw [globSetMatch_empty_eq_false hE]
    cases rule.includes.isEmpty <;> cases globSetMatch rule.includes path <;> simp
  | false =>
    cases rule.includes.isEmpty <;> cases globSetMatch rule.includes path <;>
      cases globSetMatch rule.excludes path <;> simp

/-- C4: for every (rule, candidate) pair — a candidate being a walked
file that passes the specified-paths restriction — the matcher gate is
open (the skip condition of src/main.rs:162-169 is false) if and only if
(includes is empty or some include matches) and (excludes is empty or no
exclude matches); and a path matching both an include and an exclude of
the same rule is always skipped. -/
theorem scope_test_matches_spec (rule : Rule) (specified : List String)
    (path canonPath : String) :
    ((specified.isEmpty || specified.contains canonPath) = true →
      (skipRule rule specified path canonPath = false ↔ inScopeSpec rule path = true))
    ∧ (globSetMatch rule.includes path = true → globSetMatch rule.excludes path = true →
      skipRule rule specified path canonPath = true) := by
  constructor
  · intro helig
    have hspec : (!specified.isEmpty && !specified.contains canonPath) = false := by
      cases h1 : specified.isEmpty <;> cases h2 : specified.contains canonPath <;>
        simp_all
    unfold skipRule
    rw [hspec, Bool.or_false]
    exact scope_part_false_iff rule path
  · intro hi he
    simp [skipRule, he]

theorem scope_test_matches_spec_witness :
    skipRule mdRule [] "README.md" "/abs/README.md" = false ∧
      skipRule mdRule [] "notes.txt" "/abs/notes.txt" = true := by
  constructor
  · exact ((scope_test_matches_spec mdRule [] "README.md" "/abs/README.md").1
      (by decide)).mpr (by decide)
  · have h := (scope_test_matches_spec mdRule [] "notes.txt" "/abs/notes.txt").1 (by decide)
    cases hs : skipRule mdRule [] "notes.txt" "/abs/notes.txt" with
    | true => rfl
    | false => exact absurd (h.mp hs) (by decide)

/-- C10: when an explicit or staged path set is supplied (it is
non-empty), the walk's skip gate opens for a (rule, entry) pair exactly
when the entry is in the rule's glob scope AND its canonical path is in
the specified set — the set restricts the walk's candidates, it does not
replace the walk (the walk loop itself, `runWalk`, takes the walked items
independently of `specified`). -/
theorem specified_paths_restrict_walk (rule : Rule) (specified : List String)
    (path canonPath : String) (hne : specified ≠ []) :
    skipRule rule specified path canonPath = false ↔
      (inScopeSpec rule path = true ∧ specified.contains canonPath = true) := by
  have hemp : specified.isEmpty = false := by
    cases specified with
    | nil => exact absurd rfl hne
    | cons a as => rfl
  unfold skipRule
  rw [Bool.or_assoc]
  constructor
  · intro h
    have h1 := Bool.or_eq_false_iff.mp h
    have h2 := Bool.or_eq_false_iff.mp h1.2
    refine ⟨(scope_part_false_iff rule path).mp ?_, ?_⟩
    · rw [Bool.or_eq_false_iff]; exact ⟨h1.1, h2.1⟩
    · rw [hemp] at h2
      cases hc : specified.contains canonPath with
      | true => rfl
      | false => rw [hc] at h2; simp at h2
  · intro ⟨hscope, hc⟩
    have h1 := Bool.or_eq_false_iff.mp ((scope_part_false_iff rule path).mpr hscope)
    rw [h1.1, h1.2, hc]
    simp

theorem specified_paths_restrict_walk_witness :
    skipRule ruleA ["/abs/a.txt"] "b.txt" "/abs/b.txt" = true := by
  have h := specified_paths_restrict_walk ruleA ["/abs/a.txt"] "b.txt" "/abs/b.txt" (by decide)
  cases hs : skipRule ruleA ["/abs/a.txt"] "b.txt" "/abs/b.txt" with
  | true => rfl
  | false => exact absurd (h.mp hs).2 (by decide)

/-- C5: the reported line number for a match starting at character
offset `k` is `1 +` the number of newline characters in the content
before offset `k` (first conjunct), and carriage returns play no role in
the count: removing every `\r` leaves the newline count unchanged
(second conjunct). -/
theorem match_line_numbers :
    (∀ (m : Matcher) (content : List Char) (i k : Nat),
      (findIter m content)[i]? = some k →
      (matchLines m content)[i]? = some (countNl (content.take k) + 1))
    ∧ ∀ cs : List Char, countNl (cs.filter (fun c => c != '\r')) = countNl cs := by
  constructor
  · intro m content i k h
    unfold matchLines
    rw [List.getElem?_map, h]
    rfl
  · intro cs
    induction cs with
    | nil => rfl
    | cons c cs ih =>
      by_cases h : c = '\r'
      · subst h
        have h1 : ('\r' != '\r') = false := by decide
        have h2 : ('\r' == '\n') = false := by decide
        simpa [countNl, List.filter_cons, h1, h2] using ih
      · have h1 : (c != '\r') = true := by simp [bne, h]
        cases h2 : (c == '\n') <;>
          simp [countNl, List.filter_cons, h1, h2] at ih ⊢ <;> omega

theorem match_line_numbers_witness :
    (matchLines (litMatcher "TODO".toList) "a\r\nTODO".toList)[0]? =
      some (countNl ("a\r\nTODO".toList.take 3) + 1) :=
  match_line_numbers.1 (litMatcher "TODO".toList) "a\r\nTODO".toList 0 3 (by decide)

/-- C6: on one file's content, a rule whose pattern matches `m > 0`
times (non-overlapping, leftmost-first) contributes exactly one
violation, carrying the rule's id and severity, the file name, and a
line list of length `m`; a rule with zero matches contributes no
violation. -/
theorem one_violation_per_rule_file (rule : Rule) (fileName : String)
    (content : List Char) (m : Nat) (h : (findIter rule.regex content).length = m) :
    (m = 0 → ruleViolation rule fileName content = [])
    ∧ (0 < m →
      ruleViolation rule fileName content =
        [⟨rule.id, rule.severity, fileName, matchLines rule.regex content⟩]
      ∧ (matchLines rule.regex content).length = m) := by
  have hlen : (matchLines rule.regex content).length = m := by
    unfold matchLines
    rw [List.length_map]
    exact h
  constructor
  · intro hm
    unfold ruleViolation
    have : (matchLines rule.regex content).isEmpty = true := by
      rw [List.isEmpty_iff_length_eq_zero, hlen, hm]
    simp [this]
  · intro hm
    unfold ruleViolation
    have : (matchLines rule.regex content).isEmpty = false := by
      cases he : (matchLines rule.regex content).isEmpty with
      | false => rfl
      | true =>
        rw [List.isEmpty_iff_length_eq_zero, hlen] at he
        omega
    simp [this, hlen]

theorem addToGroups_ne_nil (v : Violation) (gs : List (String × List Violation)) :
    addToGroups v gs ≠ [] := by
  cases gs with
  | nil => simp [addToGroups]
  | cons g rest =>
    obtain ⟨id, ws⟩ := g
    unfold addToGroups
    by_cases h : id = v.rule_id <;> simp [h]

theorem foldl_addToGroups_ne_nil (vs : List Violation) :
    ∀ gs, gs ≠ [] → vs.foldl (fun gs v => addToGroups v gs) gs ≠ [] := by
  induction vs with
  | nil => intro gs h; simpa using h
  | cons v rest ih => intro gs _; exact ih _ (addToGroups_ne_nil v gs)

theorem groupById_eq_nil_iff (vs : List Violation) : groupById vs = [] ↔ vs = [] := by
  constructor
  · intro h
    cases vs with
    | nil => rfl
    | cons v rest =>
      exact absurd h
        (foldl_addToGroups_ne_nil rest (addToGroups v []) (addToGroups_ne_nil v []))
  · intro h; subst h; rfl

theorem filter_ne_nil_iff {α : Type} {p : α → Bool} {l : List α} :
    l.filter p ≠ [] ↔ ∃ v ∈ l, p v = true := by
  rw [ne_eq, List.filter_eq_nil_iff]
  push_neg
  simp

theorem warn_part_ne_nil_iff (vs : List Violation) :
    (partitionViolations vs).1 ≠ [] ↔ ∃ v ∈ vs, v.severity = Severity.Warning := by
  unfold partitionViolations
  rw [List.partition_eq_filter_filter, filter_ne_nil_iff]
  constructor
  · intro ⟨v, hv, hw⟩
    refine ⟨v, hv, ?_⟩
    cases hs : v.severity with
    | Warning => rfl
    | Error => simp [isWarning, hs] at hw
  · intro ⟨v, hv, hw⟩
    exact ⟨v, hv, by simp [isWarning, hw]⟩

theorem err_part_ne_nil_iff (vs : List Violation) :
    (partitionViolations vs).2 ≠ [] ↔ ∃ v ∈ vs, v.severity = Severity.Error := by
  unfold partitionViolations
  rw [List.partition_eq_filter_filter, filter_ne_nil_iff]
  constructor
  · intro ⟨v, hv, hw⟩
    refine ⟨v, hv, ?_⟩
    cases hs : v.severity with
    | Error => rfl
    | Warning => simp [isWarning, hs] at hw
  · intro ⟨v, hv, hw⟩
    exact ⟨v, hv, by simp [isWarning, hw]⟩

theorem groups_isEmpty_not_iff (vs : List Violation) :
    ((!(groupById vs).isEmpty) = true) ↔ vs ≠ [] := by
  rw [Bool.not_eq_true', ← Bool.not_eq_true, not_iff_comm, not_not,
    List.isEmpty_iff, groupById_eq_nil_iff]

theorem tryCollect_length (f : α → Option β) :
    ∀ (l : List α) (bs : List β), tryCollect f l = some bs → bs.length = l.length := by
  intro l
  induction l with
  | nil => intro bs h; cases h; rfl
  | cons a as ih =>
    intro bs h
    unfold tryCollect at h
    cases hf : f a with
    | none => rw [hf] at h; simp at h
    | some b =>
      rw [hf] at h
      cases hm : tryCollect f as with
      | none => rw [hm] at h; simp at h
      | some bs' =>
        rw [hm] at h
        simp at h
        subst h
        simp [ih bs' hm]

theorem tryCollect_get (f : α → Option β) :
    ∀ (l : List α) (bs : List β), tryCollect f l = some bs →
      ∀ (i : Nat) (h1 : i < bs.length) (h2 : i < l.length),
        f (l.get ⟨i, h2⟩) = some (bs.get ⟨i, h1⟩) := by
  intro l
  induction l with
  | nil => intro bs h i h1 h2; simp at h2
  | cons a as ih =>
    intro bs h i h1 h2
    unfold tryCollect at h
    cases hf : f a with
    | none => rw [hf] at h; simp at h
    | some b =>
      rw [hf] at h
      cases hm : tryCollect f as with
      | none => rw [hm] at h; simp at h
      | some bs' =>
        rw [hm] at h
        simp at h
        subst h
        cases i with
        | zero => simpa using hf
        | succ j =>
          have h1' : j < bs'.length := by simpa using h1
          have h2' : j < as.length := by simpa using h2
          simpa using ih bs' hm j h1' h2'

theorem tryCollect_none_of_mem (f : α → Option β) :
    ∀ (l : List α) (a : α), a ∈ l → f a = none → tryCollect f l = none := by
  intro l
  induction l with
  | nil => intro a ha; cases ha
  | cons x xs ih =>
    intro a ha hf
    unfold tryCollect
    cases List.mem_cons.mp ha with
    | inl heq =>
      subst heq
      simp [hf]
    | inr hmem =>
      cases hx : f x with
      | none => simp [hx]
      | some b => simp [hx, ih a hmem hf]

theorem compileRule_fields (compileGlob : String → Option Glob)
    (compileRegex : String → Option Matcher) (rc : RuleConfig) (r : Rule)
    (h : compileRule compileGlob compileRegex rc = some r) :
    r.id = rc.id ∧ r.severity = rc.severity := by
  unfold compileRule at h
  cases hi : tryCollect compileGlob (rc.includes.getD []) with
  | none => rw [hi] at h; cases h
  | some incl =>
    rw [hi] at h
    cases he : tryCollect compileGlob (rc.excludes.getD []) with
    | none => rw [he] at h; cases h
    | some excl =>
      rw [he] at h
      cases hre : compileRegex rc.regex with
      | none => rw [hre] at h; cases h
      | some re =>
        rw [hre] at h
        cases h
        exact ⟨rfl, rfl⟩

/-- C7: rule compilation is atomic and order-preserving — a successful
compilation yields exactly one compiled rule per definition, at the same
ordinal position with the definition's id and severity (first conjunct),
and if any single rule definition fails to compile, no rule list is
produced at all (second conjunct). -/
theorem rule_compilation_atomic (compileGlob : String → Option Glob)
    (compileRegex : String → Option Matcher) :
    (∀ (config : Config) (rules : List Rule),
      generate_rules_from_config compileGlob compileRegex config = some rules →
      rules.length = config.rules.length
      ∧ ∀ (i : Nat) (h1 : i < rules.length) (h2 : i < config.rules.length),
        (rules.get ⟨i, h1⟩).id = (config.rules.get ⟨i, h2⟩).id
        ∧ (rules.get ⟨i, h1⟩).severity = (config.rules.get ⟨i, h2⟩).severity)
    ∧ (∀ (config : Config) (rc : RuleConfig), rc ∈ config.rules →
      compileRule compileGlob compileRegex rc = none →
      generate_rules_from_config compileGlob compileRegex config = none) := by
  constructor
  · intro config rules h
    refine ⟨tryCollect_length _ _ _ h, ?_⟩
    intro i h1 h2
    exact compileRule_fields compileGlob compileRegex _ _
      (tryCollect_get _ _ _ h i h1 h2)
  · intro config rc hmem hfail
    exact tryCollect_none_of_mem _ _ _ hmem hfail

/-- Glob compiler used in witnesses: fails on the pattern `[`, otherwise
produces a suffix-matching glob. -/
def cgW : String → Option Glob :=
  fun s => if s = "[" then none else some (fun p => s.toList.isSuffixOf p.toList)

/-- Regex compiler used in witnesses: fails on the pattern `(`, otherwise
produces a literal-substring matcher. -/
def crW : String → Option Matcher :=
  fun s => if s = "(" then none else some (litMatcher s.toList)

/-- Rule definition with an uncompilable regex, used in witnesses. -/
def badRuleConfig : RuleConfig :=
  ⟨"bad", "unclosed group", "(", Severity.Error, none, none⟩

/-- Rule definition that compiles fine, used in witnesses. -/
def goodRuleConfig : RuleConfig :=
  ⟨"good", "no todos", "TODO", Severity.Warning, some ["*.md"], none⟩

theorem rule_compilation_atomic_witness :
    generate_rules_from_config cgW crW ⟨[goodRuleConfig, badRuleConfig]⟩ = none :=
  (rule_compilation_atomic cgW crW).2 ⟨[goodRuleConfig, badRuleConfig]⟩ badRuleConfig
    (by decide) rfl

/-- C2 counterexample: the lazy-read sentinel is `file_contents.is_empty()`
(src/main.rs:171), so a file whose content is empty is re-read for every
in-scope rule — here an empty file with two in-scope rules is read from
disk twice in one run, not at most once. -/
theorem empty_file_read_per_rule :
    (processRules [] "empty.txt" "/abs/empty.txt" "empty.txt" (Except.ok [])
      [ruleA, ruleB] []).reads = 2 := by decide

theorem processRules_reads_zero_of_ne_nil (specified : List String)
    (entryPath canonPath fileName : String) (disk : Except String (List Char))
    (rules : List Rule) (buf : List Char) (h : buf ≠ []) :
    (processRules specified entryPath canonPath fileName disk rules buf).reads = 0 := by
  induction rules with
  | nil => rfl
  | cons rule rest ih =>
    have hbe : buf.isEmpty = false := by
      cases buf with
      | nil => exact absurd rfl h
      | cons a as => rfl
    unfold processRules
    cases hs : skipRule rule specified entryPath canonPath with
    | true => simp only [if_true]; exact ih
    | false => simp only [if_false, hbe, Bool.false_eq_true, ite_false]; exact ih

/-- C2 as amended: for a candidate file whose content is non-empty, the
per-entry rule loop reads the file from disk at most once, no matter how
many rules are in scope (the buffer is local to the entry's processing
and dropped afterwards); only a file with empty content is re-read once
per in-scope rule, because the cache sentinel is buffer emptiness. -/
theorem nonempty_file_read_once (specified : List String)
    (entryPath canonPath fileName : String) (c : List Char) (rules : List Rule)
    (h : c ≠ []) :
    (processRules specified entryPath canonPath fileName (Except.ok c) rules []).reads ≤ 1 := by
  induction rules with
  | nil => exact Nat.zero_le 1
  | cons rule rest ih =>
    unfold processRules
    cases hs : skipRule rule specified entryPath canonPath with
    | true => simp only [if_true]; exact ih
    | false =>
      have hz := processRules_reads_zero_of_ne_nil specified entryPath canonPath fileName
        (Except.ok c) rest c h
      simp [hz]

theorem nonempty_file_read_once_witness :
    (processRules [] "f.txt" "/abs/f.txt" "f.txt" (Except.ok "AAA".toList)
      [ruleA, ruleB] []).reads ≤ 1 :=
  nonempty_file_read_once [] "f.txt" "/abs/f.txt" "f.txt" "AAA".toList [ruleA, ruleB]
    (by decide)

/-- C3 counterexample: an entry whose metadata query fails aborts the
whole run (the `?` on `entry.metadata()` in src/main.rs:156), so the
remaining entries are never scanned — here the second entry contains a
match that the aborted run never reports, where the claim requires the
scan to continue with remaining entries. -/
theorem metadata_error_aborts_walk :
    runWalk [ruleA] []
        [WalkItem.entry "bad.txt" "/abs/bad.txt" "bad.txt" false false (Except.ok []),
         WalkItem.entry "good.txt" "/abs/good.txt" "good.txt" false true
           (Except.ok "AAA".toList)]
      = Except.error "metadata query failed for bad.txt"
    ∧ runWalk [ruleA] []
        [WalkItem.entry "good.txt" "/abs/good.txt" "good.txt" false true
           (Except.ok "AAA".toList)]
      = Except.ok ([⟨"a-rule", Severity.Warning, "good.txt", [1]⟩], []) := by
  constructor
  · rfl
  · rfl

/-- C3 as amended: errors yielded by the walker itself and per-file
open/read failures are non-fatal — every walk whose entries all have a
successful metadata query completes (first conjunct), and a walker error
is reported on the error stream while the scan of the remaining entries
proceeds unchanged (second conjunct); however an entry whose metadata
query fails aborts the run. -/
theorem walk_errors_nonfatal (rules : List Rule) (specified : List String) :
    (∀ items : List WalkItem, (∀ item ∈ items, item.metaOk = true) →
      ∃ out, runWalk rules specified items = Except.ok out)
    ∧ (∀ (m : String) (rest : List WalkItem) (vs : List Violation) (msgs : List String),
      runWalk rules specified rest = Except.ok (vs, msgs) →
      runWalk rules specified (WalkItem.err m :: rest)
        = Except.ok (vs, ("Error: " ++ m) :: msgs)) := by
  constructor
  · intro items hmeta
    induction items with
    | nil => exact ⟨([], []), rfl⟩
    | cons item rest ih =>
      have hrest : ∃ out, runWalk rules specified rest = Except.ok out :=
        ih (fun x hx => hmeta x (List.mem_cons_of_mem item hx))
      obtain ⟨⟨vs, msgs⟩, hr⟩ := hrest
      cases item with
      | err m => exact ⟨(vs, ("Error: " ++ m) :: msgs), by unfold runWalk; rw [hr]⟩
      | entry path canonPath fileName isDir mOk disk =>
        have hm : mOk = true := hmeta _ (List.mem_cons_self _ _)
        subst hm
        cases isDir with
        | true => exact ⟨(vs, msgs), by unfold runWalk; simpa using hr⟩
        | false =>
          refine ⟨((processRules specified path canonPath fileName disk rules []).violations
              ++ vs,
            (processRules specified path canonPath fileName disk rules []).errMsgs ++ msgs),
            ?_⟩
          unfold runWalk
          simp only [Bool.not_true, Bool.false_eq_true, if_false, ite_false]
          rw [hr]
  · intro m rest vs msgs h
    unfold runWalk
    rw [h]

theorem walk_errors_nonfatal_witness :
    ∃ out, runWalk [ruleA] []
        [WalkItem.err "permission denied",
         WalkItem.entry "locked.txt" "/abs/locked.txt" "locked.txt" false true
           (Except.error "permission denied"),
         WalkItem.entry "good.txt" "/abs/good.txt" "good.txt" false true
           (Except.ok "AAA".toList)]
      = Except.ok out :=
  (walk_errors_nonfatal [ruleA] []).1 _ (by decide)

theorem one_violation_per_rule_file_witness :
    ruleViolation ruleA "f.txt" "AAA\nAAA".toList =
      [⟨"a-rule", Severity.Warning, "f.txt", matchLines ruleA.regex "AAA\nAAA".toList⟩]
    ∧ (matchLines ruleA.regex "AAA\nAAA".toList).length = 2 :=
  (one_violation_per_rule_file ruleA "f.txt" "AAA\nAAA".toList 2 (by decide)).2 (by decide)

/-- C8: a run that terminates (no prompt left hanging on exhausted
input) exits non-zero exactly when an interactive warning prompt was
answered `n`, or at least one error-severity violation exists, or the
treat-warnings-as-errors flag is set and at least one warning-severity
violation exists; otherwise it exits 0 (src/main.rs:268-281 and
src/main.rs:307-312). -/
theorem final_outcome_policy (noConfirm errorOnWarning : Bool)
    (violations : List Violation) (input : List String) (r : Nat)
    (h : finalOutcome noConfirm errorOnWarning violations input = some r) :
    r ≠ 0 ↔
      ((∃ rest, processWarnGroups noConfirm
          (groupById (partitionViolations violations).1) input = some (true, rest))
       ∨ (∃ v ∈ violations, v.severity = Severity.Error)
       ∨ (errorOnWarning = true ∧ ∃ v ∈ violations, v.severity = Severity.Warning)) := by
  unfold finalOutcome at h
  cases hp : processWarnGroups noConfirm
      (groupById (partitionViolations violations).1) input with
  | none => rw [hp] at h; cases h
  | some pr =>
    obtain ⟨b, rest⟩ := pr
    rw [hp] at h
    cases b with
    | true =>
      cases h
      constructor
      · intro _; exact Or.inl ⟨rest, rfl⟩
      · intro _; omega
    | false =>
      by_cases hc : ((!(groupById (partitionViolations violations).2).isEmpty)
          || (errorOnWarning && !(groupById (partitionViolations violations).1).isEmpty)) = true
      · rw [if_pos hc] at h
        cases h
        rw [Bool.or_eq_true] at hc
        constructor
        · intro _
          rcases hc with herr | hwarn
          · exact Or.inr (Or.inl ((err_part_ne_nil_iff violations).mp
              ((groups_isEmpty_not_iff _).mp herr)))
          · rw [Bool.and_eq_true] at hwarn
            exact Or.inr (Or.inr ⟨hwarn.1, (warn_part_ne_nil_iff violations).mp
              ((groups_isEmpty_not_iff _).mp hwarn.2)⟩)
        · intro _; omega
      · rw [if_neg hc] at h
        cases h
        rw [Bool.or_eq_true] at hc
        constructor
        · intro h0; exact absurd rfl h0
        · intro hdisj
          exfalso
          rcases hdisj with ⟨rest', hn⟩ | herr | ⟨heow, hwarn⟩
          · simp at hn
          · exact hc (Or.inl ((groups_isEmpty_not_iff _).mpr
              ((err_part_ne_nil_iff violations).mpr herr)))
          · refine hc (Or.inr ?_)
            rw [Bool.and_eq_true]
            exact ⟨heow, (groups_isEmpty_not_iff _).mpr
              ((warn_part_ne_nil_iff violations).mpr hwarn)⟩

theorem final_outcome_policy_witness :
    (1 ≠ 0 ↔
      ((∃ rest, processWarnGroups true
          (groupById (partitionViolations [vErr]).1) [] = some (true, rest))
       ∨ (∃ v ∈ [vErr], v.severity = Severity.Error)
       ∨ (false = true ∧ ∃ v ∈ [vErr], v.severity = Severity.Warning))) :=
  final_outcome_policy true false [vErr] [] 1 rfl

/-- C9 counterexample: the program trims the prompt input before
comparing (src/main.rs:273), so the line `" y"` — which is not exactly
the string `y` — is accepted and ends the prompt loop as a confirmation,
leaving the following line unread, where the claim requires a re-prompt
with no side effects. -/
theorem trimmed_input_accepted :
    confirmLoop [" y", "n"] = some (true, ["n"]) ∧ " y" ≠ "y" :=
  ⟨rfl, by decide⟩

/-- C9 as amended: the prompt loop accepts input repeatedly until a line
whose whitespace-trimmed content is exactly `y` (continue) or exactly
`n` (fail due to warnings) is entered; every earlier line that trims to
neither causes a re-prompt with no effect on the eventual decision or on
the input consumed after the deciding line. -/
theorem confirm_loop_trim_semantics (pre : List String) (s : String) (rest : List String)
    (hpre : ∀ x ∈ pre, rustTrim x ≠ "y" ∧ rustTrim x ≠ "n") :
    (rustTrim s = "y" → confirmLoop (pre ++ s :: rest) = some (true, rest))
    ∧ (rustTrim s = "n" → confirmLoop (pre ++ s :: rest) = some (false, rest)) := by
  induction pre with
  | nil =>
    constructor
    · intro h
      simp [confirmLoop, h]
    · intro h
      have hy : ¬(rustTrim s = "y") := by rw [h]; decide
      simp [confirmLoop, h, hy]
  | cons x pre ih =>
    have hx := hpre x (List.mem_cons_self x pre)
    have ih' := ih (fun z hz => hpre z (List.mem_cons_of_mem x hz))
    have hstep : confirmLoop ((x :: pre) ++ s :: rest) = confirmLoop (pre ++ s :: rest) := by
      rw [List.cons_append]
      simp only [confirmLoop]
      rw [if_neg hx.1, if_neg hx.2]
    rw [hstep]
    exact ih'

theorem confirm_loop_trim_semantics_witness :
    confirmLoop ["maybe", "y"] = some (true, []) :=
  (confirm_loop_trim_semantics ["maybe"] "y" [] (by decide)).1 (by decide)

/-- C1 evaluation: the first `init` run writes the serialized example
rule and prints the initialized message; but `init_config` serializes a
bare `RuleConfig` (src/main.rs:374-375), which `read_config` cannot
parse as a `Config` (no top-level `rules` field), so the second run does
NOT print that the config already exists — it takes the write branch
again and prints the initialized message once more. The content is
bytewise unchanged only because the same value is rewritten. -/
theorem init_twice_reinitializes :
    (init_config none).2 = "Initialized example config at .lintyconfig"
    ∧ (init_config (init_config none).1).2 = "Initialized example config at .lintyconfig"
    ∧ (init_config (init_config none).1).1 = (init_config none).1
    ∧ read_config (init_config none).1 = none :=
  ⟨rfl, rfl, rfl, rfl⟩
